import Mathlib

/-!
# Verification of the 1024-ish game engine (`src/main.cpp`)

Shallow embedding of the `Board` class of `main.cpp`: the 4×4 grid, the
slide/merge primitive `slidePiecesLeft`, the rotation-based derived slides,
`move`, `addRandomPiece`, `isGameOver` and the constructor.  The random
source (`mersenne-twister.h`, not part of this repository's sources) is
modelled abstractly as a stream of naturals.
-/

namespace Game1024

/-- A grid is a 4×4 matrix of naturals, `grid[i][j]` in the C++. -/
abbrev Grid := Fin 4 → Fin 4 → Nat

/-- Modelled from the spec: the Random Source of `mersenne-twister.h`
(not under `src/`) is an abstract stream of naturals together with a
cursor; each draw consumes one stream element. -/
structure RandSource where
  f : Nat → Nat
  idx : Nat

/-- Modelled from the spec: `chooseRandomNumber(low, high)` of
`mersenne-twister.h` (not under `src/`) returns an integer in the
inclusive range `[low, high]` and advances the random source. -/
def chooseRandomNumber (lo hi : Nat) (rs : RandSource) : Nat × RandSource :=
  (lo + rs.f rs.idx % (hi + 1 - lo), ⟨rs.f, rs.idx + 1⟩)

/-- The `Board` class state: the grid and the private `winTarget`. -/
structure Board where
  grid : Grid
  winTarget : Nat

/-- `Board::getRandomStartingNumber`: one draw from `[1,10]`, thresholds
5 / 7 / 9 for modes `"E"` / `"M"` / anything else. -/
def getRandomStartingNumber (mode : String) (rs : RandSource) : Nat × RandSource :=
  let r := chooseRandomNumber 1 10 rs
  if mode = "E" then (if r.1 ≤ 5 then 2 else 4, r.2)
  else if mode = "M" then (if r.1 ≤ 7 then 2 else 4, r.2)
  else (if r.1 ≤ 9 then 2 else 4, r.2)

/-- The row-major list of empty squares scanned by `Board::addRandomPiece`. -/
def emptyList (g : Grid) : List (Fin 4 × Fin 4) :=
  ((List.finRange 4).map fun i =>
    (List.finRange 4).filterMap fun j => if g i j = 0 then some (i, j) else none).flatten

/-- `Board::addRandomPiece`: no-op when there is no empty square, else
picks index in `[0, count-1]`, then a value via `getRandomStartingNumber`
with the mode string recovered from `winTarget`. -/
def addRandomPiece (b : Board) (rs : RandSource) : Board × RandSource :=
  let empties := emptyList b.grid
  if empties = [] then (b, rs)
  else
    let k := chooseRandomNumber 0 (empties.length - 1) rs
    let cell := empties.getD k.1 (0, 0)
    let mode := if b.winTarget = 256 then "E" else if b.winTarget = 512 then "M" else "H"
    let v := getRandomStartingNumber mode k.2
    ({ b with grid := fun a c => if (a, c) = cell then v.1 else b.grid a c }, v.2)

/-- One iteration of the inner loop of `Board::slidePiecesLeft`: skip a
zero; merge the cell into `newRow.back()` when equal (setting the moved
flag); otherwise push it.  The accumulator list is kept reversed, so its
head is `newRow.back()`. -/
def collapseStep (acc : List Nat × Bool) (x : Nat) : List Nat × Bool :=
  if x = 0 then acc
  else
    match acc.1 with
    | y :: ys => if y = x then (y * 2 :: ys, true) else (x :: acc.1, acc.2)
    | [] => (x :: acc.1, acc.2)

/-- The scan of a whole row: reversed `newRow` plus the merge flag. -/
def collapseAux (r : List Nat) : List Nat × Bool :=
  r.foldl collapseStep ([], false)

/-- `newRow` after the padding loop of `slidePiecesLeft`: the collapsed
values, right-padded with zeros to the board width 4. -/
def slideRowLeft (r : List Nat) : List Nat :=
  let c := (collapseAux r).1.reverse
  c ++ List.replicate (4 - c.length) 0

/-- The contribution of one row to the `moved` flag of
`slidePiecesLeft`: a merge occurred or some cell of the row changed. -/
def rowMoved (r : List Nat) : Bool :=
  (collapseAux r).2 || decide (slideRowLeft r ≠ r)

/-- Row `i` of the grid as a list. -/
def rowList (g : Grid) (i : Fin 4) : List Nat := [g i 0, g i 1, g i 2, g i 3]

/-- The grid produced by `Board::slidePiecesLeft`. -/
def slideGridLeft (g : Grid) : Grid :=
  fun i j => (slideRowLeft (rowList g i)).getD j.val 0

/-- The `moved` flag returned by `Board::slidePiecesLeft`. -/
def movedLeft (g : Grid) : Bool :=
  (List.finRange 4).any fun i => rowMoved (rowList g i)

/-- `Board::rotateBoard(counterClockwise)`: counter-clockwise writes
`temp[3-j][i] = grid[i][j]`, clockwise writes `temp[j][3-i] = grid[i][j]`. -/
def rotateBoard (counterClockwise : Bool) (g : Grid) : Grid :=
  fun a b => if counterClockwise then g b a.rev else g b.rev a

/-- `Board::slidePiecesRight`: rotate twice (default counter-clockwise),
slide left, rotate twice back. -/
def slideGridRight (g : Grid) : Grid :=
  rotateBoard true (rotateBoard true (slideGridLeft (rotateBoard true (rotateBoard true g))))

/-- The `moved` flag of `slidePiecesRight`. -/
def movedRight (g : Grid) : Bool :=
  movedLeft (rotateBoard true (rotateBoard true g))

/-- `Board::slidePiecesUp`: rotate counter-clockwise, slide left, rotate
clockwise. -/
def slideGridUp (g : Grid) : Grid :=
  rotateBoard false (slideGridLeft (rotateBoard true g))

/-- The `moved` flag of `slidePiecesUp`. -/
def movedUp (g : Grid) : Bool := movedLeft (rotateBoard true g)

/-- `Board::slidePiecesDown`: rotate clockwise, slide left, rotate
counter-clockwise. -/
def slideGridDown (g : Grid) : Grid :=
  rotateBoard true (slideGridLeft (rotateBoard false g))

/-- The `moved` flag of `slidePiecesDown`. -/
def movedDown (g : Grid) : Bool := movedLeft (rotateBoard false g)

/-- The `switch (std::toupper(direction))` of `Board::move`: `none` is
the `default:` branch, otherwise the slid grid and the `moved` flag. -/
def slideOf (c : Char) (g : Grid) : Option (Grid × Bool) :=
  if c.toUpper = 'L' then some (slideGridLeft g, movedLeft g)
  else if c.toUpper = 'R' then some (slideGridRight g, movedRight g)
  else if c.toUpper = 'U' then some (slideGridUp g, movedUp g)
  else if c.toUpper = 'D' then some (slideGridDown g, movedDown g)
  else none

/-- `Board::move`: slide in the given direction; on a change spawn one
tile and return `true`, else return `false`. -/
def move (b : Board) (c : Char) (rs : RandSource) : Board × RandSource × Bool :=
  match slideOf c b.grid with
  | none => (b, rs, false)
  | some (g2, mv) =>
    if mv then
      let r := addRandomPiece { b with grid := g2 } rs
      (r.1, r.2, true)
    else ({ b with grid := g2 }, rs, false)

/-- `Board::isGameOver`: the grid is full and no cell equals its right
or below neighbour. -/
def isGameOver (g : Grid) : Bool :=
  decide (∀ i j : Fin 4, g i j ≠ 0 ∧
    (j.val < 3 → g i j ≠ g i (j + 1)) ∧
    (i.val < 3 → g i j ≠ g (i + 1) j))

/-- The `Board` constructor: zero grid, `winTarget` from the mode
string, then two spawns. -/
def Board.init (mode : String) (rs : RandSource) : Board × RandSource :=
  let b0 : Board :=
    { grid := fun _ _ => 0,
      winTarget := if mode = "E" then 256 else if mode = "M" then 512 else 1024 }
  let r1 := addRandomPiece b0 rs
  addRandomPiece r1.1 r1.2

/-- A cell is legal when it is empty or a positive power of two. -/
def CellOK (x : Nat) : Prop := x = 0 ∨ ∃ k, x = 2 ^ (k + 1)

/-- The data-model invariant of a `Board`: every cell legal and the win
target one of 256/512/1024. -/
def BoardInv (b : Board) : Prop :=
  (∀ i j, CellOK (b.grid i j)) ∧
  (b.winTarget = 256 ∨ b.winTarget = 512 ∨ b.winTarget = 1024)

/-- The empty grid. -/
def zeroGrid : Grid := fun _ _ => 0

/-- The board state inside the constructor just before the two initial
spawns: all cells zero, win target derived from the mode. -/
def b0Of (mode : String) : Board :=
  { grid := fun _ _ => 0,
    winTarget := if mode = "E" then 256 else if mode = "M" then 512 else 1024 }

/-- A grid whose top row is `[2,2,2,2]` and whose other rows are empty. -/
def quad2Grid : Grid := fun i _ => if i = 0 then 2 else 0

/-- A full grid with no two adjacent equal cells (checkerboard of 2s and 4s). -/
def blockedGrid : Grid := fun i j => if (i.val + j.val) % 2 = 0 then 2 else 4

/-- A fixed random source for witnesses. -/
def rsConst : RandSource := ⟨fun _ => 0, 0⟩

/-- A fixed board for witnesses: empty grid, Easy win target. -/
def demoBoard : Board := { grid := zeroGrid, winTarget := 256 }

/-! ## Invariants of the collapse fold -/

/-- Number of non-zero entries of a row. -/
def nz (r : List Nat) : Nat := r.countP fun x => decide (x ≠ 0)

theorem nz_cons (x : Nat) (r : List Nat) :
    nz (x :: r) = nz r + if x ≠ 0 then 1 else 0 := by
  simp [nz, List.countP_cons]

theorem nz_nil : nz [] = 0 := rfl

theorem collapseStep_snd_true (p : List Nat × Bool) (x : Nat) (h : p.2 = true) :
    (collapseStep p x).2 = true := by
  obtain ⟨acc, flag⟩ := p
  simp only at h
  subst h
  unfold collapseStep
  by_cases hx : x = 0 <;> cases acc <;> simp [hx]
  split <;> simp

theorem foldl_snd_true (r : List Nat) :
    ∀ p : List Nat × Bool, p.2 = true → (r.foldl collapseStep p).2 = true := by
  induction r with
  | nil => intro p h; simpa using h
  | cons x r ih =>
    intro p h
    simpa using ih (collapseStep p x) (collapseStep_snd_true p x h)

theorem foldl_mem_nonzero (r : List Nat) :
    ∀ p : List Nat × Bool, (∀ y ∈ p.1, y ≠ 0) →
      ∀ y ∈ (r.foldl collapseStep p).1, y ≠ 0 := by
  induction r with
  | nil => intro p h; simpa using h
  | cons x r ih =>
    intro p h
    simp only [List.foldl_cons]
    refine ih (collapseStep p x) ?_
    obtain ⟨acc, flag⟩ := p
    unfold collapseStep
    by_cases hx : x = 0
    · simpa [hx] using h
    · cases acc with
      | nil => simpa [hx] using hx
      | cons y ys =>
        have hy : y ≠ 0 := h y (List.mem_cons_self y ys)
        by_cases hyx : y = x
        · intro z hz
          simp only [hx, hyx, if_neg, if_pos, ite_false, ite_true] at hz
          rcases List.mem_cons.mp hz with hz | hz
          · subst hz; simp [hyx] at hy ⊢; simpa using hy
          · exact h z (List.mem_cons_of_mem _ hz)
        · intro z hz
          simp only [hx, hyx, ite_false] at hz
          rcases List.mem_cons.mp hz with hz | hz
          · subst hz; exact hx
          · exact h z hz

theorem foldl_len_le (r : List Nat) :
    ∀ p : List Nat × Bool, (r.foldl collapseStep p).1.length ≤ p.1.length + nz r := by
  induction r with
  | nil => intro p; simp [nz]
  | cons x r ih =>
    intro p
    simp only [List.foldl_cons, nz_cons]
    refine le_trans (ih (collapseStep p x)) ?_
    obtain ⟨acc, flag⟩ := p
    unfold collapseStep
    by_cases hx : x = 0
    · simp [hx]
    · cases acc with
      | nil => simp [hx]; omega
      | cons y ys =>
        by_cases hyx : y = x <;> simp [hx, hyx] <;> omega

theorem foldl_ne_nil (r : List Nat) :
    ∀ p : List Nat × Bool, p.1 ≠ [] → (r.foldl collapseStep p).1 ≠ [] := by
  induction r with
  | nil => intro p h; simpa using h
  | cons x r ih =>
    intro p h
    simp only [List.foldl_cons]
    refine ih (collapseStep p x) ?_
    obtain ⟨acc, flag⟩ := p
    unfold collapseStep
    by_cases hx : x = 0
    · simpa [hx] using h
    · cases acc with
      | nil => simp [hx]
      | cons y ys => by_cases hyx : y = x <;> simp [hx, hyx]

theorem foldl_ne_nil_of_nonzero (r : List Nat) :
    ∀ p : List Nat × Bool, (∃ x ∈ r, x ≠ 0) → (r.foldl collapseStep p).1 ≠ [] := by
  induction r with
  | nil => intro p h; simp at h
  | cons x r ih =>
    intro p h
    simp only [List.foldl_cons]
    by_cases hx : x = 0
    · refine ih (collapseStep p x) ?_
      rcases h with ⟨z, hz, hz0⟩
      rcases List.mem_cons.mp hz with rfl | hz
      · exact absurd hx hz0
      · exact ⟨z, hz, hz0⟩
    · refine foldl_ne_nil r (collapseStep p x) ?_
      obtain ⟨acc, flag⟩ := p
      unfold collapseStep
      cases acc with
      | nil => simp [hx]
      | cons y ys => by_cases hyx : y = x <;> simp [hx, hyx]

theorem foldl_no_merge_shape (r : List Nat) :
    ∀ p : List Nat × Bool, p.2 = false → (r.foldl collapseStep p).2 = false →
      (r.foldl collapseStep p).1 = (r.filter fun x => decide (x ≠ 0)).reverse ++ p.1 := by
  induction r with
  | nil => intro p h1 h2; simp
  | cons x r ih =>
    intro p h1 h2
    simp only [List.foldl_cons] at h2 ⊢
    obtain ⟨acc, flag⟩ := p
    simp only at h1
    subst h1
    by_cases hx : x = 0
    · have : collapseStep (acc, false) x = (acc, false) := by simp [collapseStep, hx]
      rw [this] at h2 ⊢
      rw [ih (acc, false) rfl h2]
      simp [hx]
    · cases acc with
      | nil =>
        have : collapseStep (([] : List Nat), false) x = ([x], false) := by
          simp [collapseStep, hx]
        rw [this] at h2 ⊢
        rw [ih ([x], false) rfl h2]
        simp [hx]
      | cons y ys =>
        by_cases hyx : y = x
        · exfalso
          have : collapseStep (y :: ys, false) x = (y * 2 :: ys, true) := by
            simp [collapseStep, hx, hyx]
          rw [this] at h2
          rw [foldl_snd_true r _ rfl] at h2
          exact absurd h2 (by simp)
        · have : collapseStep (y :: ys, false) x = (x :: y :: ys, false) := by
            simp [collapseStep, hx, hyx]
          rw [this] at h2 ⊢
          rw [ih (x :: y :: ys, false) rfl h2]
          simp [hx]

theorem foldl_merge_shrink (r : List Nat) :
    ∀ p : List Nat × Bool, p.2 = false → (r.foldl collapseStep p).2 = true →
      (r.foldl collapseStep p).1.length < p.1.length + nz r := by
  induction r with
  | nil =>
    intro p h1 h2
    simp only [List.foldl_nil] at h2
    rw [h1] at h2
    exact absurd h2 (by simp)
  | cons x r ih =>
    intro p h1 h2
    simp only [List.foldl_cons, nz_cons] at h2 ⊢
    obtain ⟨acc, flag⟩ := p
    simp only at h1
    subst h1
    by_cases hx : x = 0
    · have hstep : collapseStep (acc, false) x = (acc, false) := by simp [collapseStep, hx]
      rw [hstep] at h2 ⊢
      have := ih (acc, false) rfl h2
      simpa [hx] using this
    · cases acc with
      | nil =>
        have hstep : collapseStep (([] : List Nat), false) x = ([x], false) := by
          simp [collapseStep, hx]
        rw [hstep] at h2 ⊢
        have := ih ([x], false) rfl h2
        simp only [List.length_cons, List.length_nil] at this
        simp [hx]
        omega
      | cons y ys =>
        by_cases hyx : y = x
        · have hstep : collapseStep (y :: ys, false) x = (y * 2 :: ys, true) := by
            simp [collapseStep, hx, hyx]
          rw [hstep] at h2 ⊢
          have := foldl_len_le r (y * 2 :: ys, true)
          simp only [List.length_cons] at this ⊢
          simp [hx]
          omega
        · have hstep : collapseStep (y :: ys, false) x = (x :: y :: ys, false) := by
            simp [collapseStep, hx, hyx]
          rw [hstep] at h2 ⊢
          have := ih (x :: y :: ys, false) rfl h2
          simp only [List.length_cons] at this ⊢
          simp [hx]
          omega

/-! ## Row-level lemmas about `slideRowLeft` -/

theorem collapse_len_le_nz (r : List Nat) : (collapseAux r).1.length ≤ nz r := by
  simpa using foldl_len_le r ([], false)

theorem nz_le_length (r : List Nat) : nz r ≤ r.length :=
  List.countP_le_length _

theorem collapse_mem_nonzero (r : List Nat) :
    ∀ y ∈ (collapseAux r).1, y ≠ 0 :=
  foldl_mem_nonzero r ([], false) (by simp)

theorem nz_collapse (r : List Nat) : nz (collapseAux r).1 = (collapseAux r).1.length :=
  List.countP_eq_length.mpr fun a ha => by
    simpa using collapse_mem_nonzero r a ha

theorem nz_replicate_zero (n : Nat) : nz (List.replicate n 0) = 0 := by
  simp [nz, List.countP_replicate]

theorem nz_reverse (r : List Nat) : nz r.reverse = nz r := by
  simp [nz]

theorem nz_slideRowLeft (r : List Nat) :
    nz (slideRowLeft r) = (collapseAux r).1.length := by
  unfold slideRowLeft nz
  rw [List.countP_append]
  have h1 := nz_collapse r
  have h2 := nz_replicate_zero (4 - (collapseAux r).1.reverse.length)
  unfold nz at h1 h2
  rw [h2]
  rw [show List.countP (fun x => decide (x ≠ 0)) (collapseAux r).1.reverse
      = List.countP (fun x => decide (x ≠ 0)) (collapseAux r).1 from by simp [List.countP_reverse]]
  omega

theorem slideRowLeft_length (r : List Nat) (h : r.length = 4) :
    (slideRowLeft r).length = 4 := by
  have h1 := collapse_len_le_nz r
  have h2 := nz_le_length r
  unfold slideRowLeft
  simp only [List.length_append, List.length_reverse, List.length_replicate]
  omega

/-- A merge in the scan always changes the row: the merge strictly
shrinks the number of non-zero entries. -/
theorem merge_changes (r : List Nat) (hm : (collapseAux r).2 = true) :
    slideRowLeft r ≠ r := by
  intro heq
  have hlt : (collapseAux r).1.length < nz r := by
    simpa using foldl_merge_shrink r ([], false) rfl hm
  have : nz (slideRowLeft r) = nz r := by rw [heq]
  rw [nz_slideRowLeft] at this
  omega

/-- The `moved` contribution of a row is exactly "this row changed". -/
theorem rowMoved_iff (r : List Nat) :
    rowMoved r = true ↔ slideRowLeft r ≠ r := by
  unfold rowMoved
  constructor
  · intro h
    rcases Bool.or_eq_true_iff.mp h with h | h
    · exact merge_changes r h
    · simpa using h
  · intro h
    apply Bool.or_eq_true_iff.mpr
    right
    simpa using h

theorem rowMoved_false (r : List Nat) (h : rowMoved r = false) :
    slideRowLeft r = r := by
  by_contra hne
  rw [(rowMoved_iff r).mpr hne] at h
  exact absurd h (by simp)

/-- When the collapse keeps at most 3 values, cell 3 of the padded row is 0. -/
theorem slideRowLeft_getD3 (r : List Nat) (hlen : (collapseAux r).1.length ≤ 3) :
    (slideRowLeft r).getD 3 0 = 0 := by
  unfold slideRowLeft
  rw [List.getD_eq_getElem?_getD, List.getElem?_append_right (by simpa using hlen),
    List.getElem?_replicate]
  rw [if_pos (by simp; omega)]
  rfl

/-- If a 4-cell row changes under the slide, its last cell ends up 0. -/
theorem slideRowLeft_last_zero (r : List Nat) (h4 : r.length = 4)
    (hne : slideRowLeft r ≠ r) : (slideRowLeft r).getD 3 0 = 0 := by
  have hlen3 : (collapseAux r).1.length ≤ 3 := by
    cases hm : (collapseAux r).2
    · -- no merge: the collapse keeps exactly the non-zero entries in order
      have hshape : (collapseAux r).1 = (r.filter fun x => decide (x ≠ 0)).reverse ++ [] := by
        simpa using foldl_no_merge_shape r ([], false) rfl hm
      by_contra hgt
      have hnz4 : nz r = 4 := by
        have h1 := collapse_len_le_nz r
        have h2 := nz_le_length r
        omega
      have hfull : r.filter (fun x => decide (x ≠ 0)) = r := by
        apply List.filter_eq_self.mpr
        apply List.countP_eq_length.mp
        show nz r = r.length
        omega
      apply hne
      unfold slideRowLeft
      rw [hshape]
      simp only [List.append_nil, List.reverse_reverse, List.length_reverse]
      rw [hfull]
      simp [h4]
    · have hlt : (collapseAux r).1.length < nz r := by
        simpa using foldl_merge_shrink r ([], false) rfl hm
      have h2 := nz_le_length r
      omega
  exact slideRowLeft_getD3 r hlen3

/-- A row starting with 0 that holds some non-zero value changes under
the slide: the first output cell is non-zero. -/
theorem head_zero_changes (r : List Nat) (h0 : r.getD 0 0 = 0)
    (hnz : ∃ x ∈ r, x ≠ 0) : slideRowLeft r ≠ r := by
  intro heq
  have hcne : (collapseAux r).1 ≠ [] := foldl_ne_nil_of_nonzero r ([], false) hnz
  have hrevne : (collapseAux r).1.reverse ≠ [] := by simpa using hcne
  have hlen : 0 < (collapseAux r).1.reverse.length := List.length_pos.mpr hrevne
  have hhead : (slideRowLeft r).getD 0 0 ≠ 0 := by
    unfold slideRowLeft
    rw [List.getD_eq_getElem?_getD, List.getElem?_append_left hlen,
      List.getElem?_eq_getElem hlen]
    simp only [Option.getD_some]
    have hmem := List.getElem_mem hlen
    exact collapse_mem_nonzero r _ (List.mem_reverse.mp hmem)
  rw [heq] at hhead
  exact hhead h0

/-! ## Grid-level lemmas -/

theorem len4_ext (l : List Nat) (h : l.length = 4) :
    l = [l.getD 0 0, l.getD 1 0, l.getD 2 0, l.getD 3 0] := by
  rcases l with _ | ⟨a, _ | ⟨b, _ | ⟨c, _ | ⟨d, _ | ⟨e, t⟩⟩⟩⟩⟩
  · simp at h
  · simp at h
  · simp at h
  · simp at h
  · rfl
  · simp at h

theorem rowList_getD (g : Grid) (i : Fin 4) (j : Fin 4) :
    (rowList g i).getD j.val 0 = g i j := by
  fin_cases j <;> rfl

theorem rowList_length (g : Grid) (i : Fin 4) : (rowList g i).length = 4 := rfl

theorem rowList_slideGridLeft (g : Grid) (i : Fin 4) :
    rowList (slideGridLeft g) i = slideRowLeft (rowList g i) := by
  have h4 : (slideRowLeft (rowList g i)).length = 4 :=
    slideRowLeft_length _ (rowList_length g i)
  conv_rhs => rw [len4_ext (slideRowLeft (rowList g i)) h4]
  rfl

theorem rowList_inj (g h : Grid) (hr : ∀ i, rowList g i = rowList h i) : g = h := by
  funext i j
  have h1 : (rowList g i).getD j.val 0 = (rowList h i).getD j.val 0 := by rw [hr i]
  rw [rowList_getD, rowList_getD] at h1
  exact h1

theorem slideGridLeft_eq_iff (g : Grid) :
    slideGridLeft g = g ↔ movedLeft g = false := by
  constructor
  · intro h
    unfold movedLeft
    rw [List.any_eq_false]
    intro i _
    rw [Bool.not_eq_true, ← Bool.not_eq_true, ← ne_eq] at *
    intro hmv
    have hne := (rowMoved_iff (rowList g i)).mp hmv
    apply hne
    rw [← rowList_slideGridLeft, h]
  · intro h
    have hrow : ∀ i, rowMoved (rowList g i) = false := by
      intro i
      by_contra hc
      rw [← ne_eq, Bool.ne_false_iff] at hc
      have : movedLeft g = true := by
        unfold movedLeft
        rw [List.any_eq_true]
        exact ⟨i, List.mem_finRange i, hc⟩
      rw [this] at h
      exact absurd h (by simp)
    funext i j
    show (slideRowLeft (rowList g i)).getD j.val 0 = g i j
    rw [rowMoved_false _ (hrow i), rowList_getD]

theorem movedLeft_iff (g : Grid) : movedLeft g = true ↔ slideGridLeft g ≠ g := by
  constructor
  · intro h hc
    rw [(slideGridLeft_eq_iff g).mp hc] at h
    exact absurd h (by simp)
  · intro h
    cases hb : movedLeft g
    · exact absurd ((slideGridLeft_eq_iff g).mpr hb) h
    · rfl

/-! rotation identities -/

theorem rot_cw_ccw (g : Grid) : rotateBoard false (rotateBoard true g) = g := by
  funext a b
  simp [rotateBoard]

theorem rot_ccw_cw (g : Grid) : rotateBoard true (rotateBoard false g) = g := by
  funext a b
  simp [rotateBoard]

theorem rot_ccw_ccw_apply (g : Grid) (a b : Fin 4) :
    rotateBoard true (rotateBoard true g) a b = g a.rev b.rev := by
  simp [rotateBoard]

theorem rot180_rot180 (g : Grid) :
    rotateBoard true (rotateBoard true (rotateBoard true (rotateBoard true g))) = g := by
  funext a b
  simp [rot_ccw_ccw_apply]

theorem rot_cw4 (g : Grid) :
    rotateBoard false (rotateBoard false (rotateBoard false (rotateBoard false g))) = g := by
  funext a b
  simp [rotateBoard]

theorem movedRight_iff (g : Grid) : movedRight g = true ↔ slideGridRight g ≠ g := by
  unfold movedRight slideGridRight
  rw [movedLeft_iff]
  constructor
  · intro h hc
    apply h
    have := congrArg (fun x => rotateBoard true (rotateBoard true x)) hc
    simpa [rot180_rot180] using this
  · intro h hc
    apply h
    rw [hc, rot180_rot180]

theorem movedUp_iff (g : Grid) : movedUp g = true ↔ slideGridUp g ≠ g := by
  unfold movedUp slideGridUp
  rw [movedLeft_iff]
  constructor
  · intro h hc
    apply h
    have := congrArg (rotateBoard true) hc
    simpa [rot_ccw_cw] using this
  · intro h hc
    apply h
    rw [hc, rot_cw_ccw]

theorem movedDown_iff (g : Grid) : movedDown g = true ↔ slideGridDown g ≠ g := by
  unfold movedDown slideGridDown
  rw [movedLeft_iff]
  constructor
  · intro h hc
    apply h
    have := congrArg (rotateBoard false) hc
    simpa [rot_cw_ccw] using this
  · intro h hc
    apply h
    rw [hc, rot_ccw_cw]

/-! ## `slideOf` and `move` case analysis -/

theorem slideOf_cases (c : Char) (g : Grid) (p : Grid × Bool) (h : slideOf c g = some p) :
    p = (slideGridLeft g, movedLeft g) ∨ p = (slideGridRight g, movedRight g) ∨
    p = (slideGridUp g, movedUp g) ∨ p = (slideGridDown g, movedDown g) := by
  unfold slideOf at h
  split_ifs at h
  · exact Or.inl (Option.some_injective _ h).symm
  · exact Or.inr (Or.inl (Option.some_injective _ h).symm)
  · exact Or.inr (Or.inr (Or.inl (Option.some_injective _ h).symm))
  · exact Or.inr (Or.inr (Or.inr (Option.some_injective _ h).symm))

theorem slideOf_moved_iff (c : Char) (g : Grid) (p : Grid × Bool)
    (h : slideOf c g = some p) : p.2 = true ↔ p.1 ≠ g := by
  rcases slideOf_cases c g p h with rfl | rfl | rfl | rfl
  · exact movedLeft_iff g
  · exact movedRight_iff g
  · exact movedUp_iff g
  · exact movedDown_iff g

theorem move_of_none (b : Board) (c : Char) (rs : RandSource)
    (h : slideOf c b.grid = none) : move b c rs = (b, rs, false) := by
  unfold move
  rw [h]

theorem move_of_false (b : Board) (c : Char) (rs : RandSource) (p : Grid × Bool)
    (h : slideOf c b.grid = some p) (hmv : p.2 = false) :
    move b c rs = ({ b with grid := p.1 }, rs, false) := by
  obtain ⟨g2, mv⟩ := p
  simp only at hmv
  subst hmv
  unfold move
  rw [h]
  rfl

theorem move_of_true (b : Board) (c : Char) (rs : RandSource) (p : Grid × Bool)
    (h : slideOf c b.grid = some p) (hmv : p.2 = true) :
    move b c rs = ((addRandomPiece { b with grid := p.1 } rs).1,
      (addRandomPiece { b with grid := p.1 } rs).2, true) := by
  obtain ⟨g2, mv⟩ := p
  simp only at hmv
  subst hmv
  unfold move
  rw [h]
  rfl

/-! ## `addRandomPiece` -/

theorem mem_emptyList (g : Grid) (p : Fin 4 × Fin 4) :
    p ∈ emptyList g ↔ g p.1 p.2 = 0 := by
  obtain ⟨i, j⟩ := p
  unfold emptyList
  rw [List.mem_flatten]
  constructor
  · rintro ⟨l, hl, hp⟩
    rw [List.mem_map] at hl
    obtain ⟨a, -, rfl⟩ := hl
    rw [List.mem_filterMap] at hp
    obtain ⟨b, -, hb⟩ := hp
    by_cases hz : g a b = 0
    · rw [if_pos hz] at hb
      have hab := Option.some_injective _ hb
      rw [Prod.mk.injEq] at hab
      obtain ⟨rfl, rfl⟩ := hab
      exact hz
    · rw [if_neg hz] at hb
      exact absurd hb (by simp)
  · intro hz
    refine ⟨(List.finRange 4).filterMap
        (fun j' => if g i j' = 0 then some (i, j') else none), ?_, ?_⟩
    · exact List.mem_map.mpr ⟨i, List.mem_finRange i, rfl⟩
    · exact List.mem_filterMap.mpr ⟨j, List.mem_finRange j, by rw [if_pos hz]⟩

theorem emptyList_ne_nil (g : Grid) (i j : Fin 4) (h : g i j = 0) :
    emptyList g ≠ [] := by
  intro hc
  have := (mem_emptyList g (i, j)).mpr h
  rw [hc] at this
  exact absurd this (by simp)

theorem addRandomPiece_of_full (b : Board) (rs : RandSource)
    (h : emptyList b.grid = []) : addRandomPiece b rs = (b, rs) := by
  unfold addRandomPiece
  rw [h]
  simp

theorem getRandomStartingNumber_eq (wt : Nat) (rs : RandSource) :
    getRandomStartingNumber
        (if wt = 256 then "E" else if wt = 512 then "M" else "H") rs =
      (if (chooseRandomNumber 1 10 rs).1 ≤
          (if wt = 256 then 5 else if wt = 512 then 7 else 9) then 2 else 4,
        (chooseRandomNumber 1 10 rs).2) := by
  by_cases h1 : wt = 256
  · simp [getRandomStartingNumber, h1]
  · by_cases h2 : wt = 512 <;> simp [getRandomStartingNumber, h1, h2]

theorem chooseRandomNumber_1_10 (rs : RandSource) :
    1 ≤ (chooseRandomNumber 1 10 rs).1 ∧ (chooseRandomNumber 1 10 rs).1 ≤ 10 := by
  unfold chooseRandomNumber
  refine ⟨by omega, ?_⟩
  have : rs.f rs.idx % 10 < 10 := Nat.mod_lt _ (by omega)
  simp only
  omega

/-- Full characterization of a spawn on a board with at least one empty
square: the drawn index is in range, the chosen square was empty, it
receives 2 or 4 according to the `[1,10]` draw against the threshold
derived from `winTarget`, and nothing else changes. -/
theorem addRandomPiece_spec (b : Board) (rs : RandSource)
    (hne : emptyList b.grid ≠ []) :
    (chooseRandomNumber 0 ((emptyList b.grid).length - 1) rs).1 <
      (emptyList b.grid).length ∧
    b.grid ((emptyList b.grid).getD
        (chooseRandomNumber 0 ((emptyList b.grid).length - 1) rs).1 (0, 0)).1
      ((emptyList b.grid).getD
        (chooseRandomNumber 0 ((emptyList b.grid).length - 1) rs).1 (0, 0)).2 = 0 ∧
    (addRandomPiece b rs).1.grid
        ((emptyList b.grid).getD
          (chooseRandomNumber 0 ((emptyList b.grid).length - 1) rs).1 (0, 0)).1
        ((emptyList b.grid).getD
          (chooseRandomNumber 0 ((emptyList b.grid).length - 1) rs).1 (0, 0)).2 =
      (if (chooseRandomNumber 1 10
            (chooseRandomNumber 0 ((emptyList b.grid).length - 1) rs).2).1 ≤
          (if b.winTarget = 256 then 5 else if b.winTarget = 512 then 7 else 9)
        then 2 else 4) ∧
    (∀ q : Fin 4 × Fin 4,
      q ≠ (emptyList b.grid).getD
          (chooseRandomNumber 0 ((emptyList b.grid).length - 1) rs).1 (0, 0) →
      (addRandomPiece b rs).1.grid q.1 q.2 = b.grid q.1 q.2) ∧
    (addRandomPiece b rs).1.winTarget = b.winTarget ∧
    (addRandomPiece b rs).2 =
      (chooseRandomNumber 1 10
        (chooseRandomNumber 0 ((emptyList b.grid).length - 1) rs).2).2 := by
  have hlen : 0 < (emptyList b.grid).length := List.length_pos.mpr hne
  have hk : (chooseRandomNumber 0 ((emptyList b.grid).length - 1) rs).1 <
      (emptyList b.grid).length := by
    unfold chooseRandomNumber
    simp only
    have h1 : (emptyList b.grid).length - 1 + 1 - 0 = (emptyList b.grid).length := by omega
    rw [h1]
    have := Nat.mod_lt (rs.f rs.idx) hlen
    omega
  refine ⟨hk, ?_, ?_, ?_, ?_, ?_⟩
  · have hmem : (emptyList b.grid).getD
        (chooseRandomNumber 0 ((emptyList b.grid).length - 1) rs).1 (0, 0) ∈
        emptyList b.grid := by
      rw [List.getD_eq_getElem _ _ hk]
      exact List.getElem_mem hk
    exact (mem_emptyList b.grid _).mp hmem
  · unfold addRandomPiece
    rw [if_neg hne]
    simp only [getRandomStartingNumber_eq]
    simp
  · intro q hq
    unfold addRandomPiece
    rw [if_neg hne]
    simp
    intro hc
    exfalso
    apply hq
    rw [List.getD_eq_getElem?_getD]
    exact hc
  · unfold addRandomPiece
    rw [if_neg hne]
  · unfold addRandomPiece
    rw [if_neg hne]
    simp only [getRandomStartingNumber_eq]

/-- Simplified spawn description: on a non-full board exactly one
previously-empty square becomes 2 or 4, everything else is untouched. -/
theorem addRandomPiece_changes (b : Board) (rs : RandSource)
    (hne : emptyList b.grid ≠ []) :
    ∃ p : Fin 4 × Fin 4, b.grid p.1 p.2 = 0 ∧
      ((addRandomPiece b rs).1.grid p.1 p.2 = 2 ∨
        (addRandomPiece b rs).1.grid p.1 p.2 = 4) ∧
      (∀ q : Fin 4 × Fin 4, q ≠ p →
        (addRandomPiece b rs).1.grid q.1 q.2 = b.grid q.1 q.2) ∧
      (addRandomPiece b rs).1.winTarget = b.winTarget := by
  obtain ⟨-, hcell0, hval, hother, hwt, -⟩ := addRandomPiece_spec b rs hne
  refine ⟨_, hcell0, ?_, hother, hwt⟩
  rw [hval]
  split_ifs <;> simp

/-! ## A changing slide always leaves an empty cell -/

theorem slideGridLeft_has_zero (g : Grid) (h : slideGridLeft g ≠ g) :
    ∃ i j, slideGridLeft g i j = 0 := by
  have hex : ∃ i, slideRowLeft (rowList g i) ≠ rowList g i := by
    by_contra hc
    push_neg at hc
    apply h
    apply rowList_inj
    intro i
    rw [rowList_slideGridLeft, hc i]
  obtain ⟨i, hi⟩ := hex
  refine ⟨i, 3, ?_⟩
  show (slideRowLeft (rowList g i)).getD (3 : Fin 4).val 0 = 0
  exact slideRowLeft_last_zero _ (rowList_length g i) hi

theorem rot_has_zero (bb : Bool) (h : Grid) (hz : ∃ i j, h i j = 0) :
    ∃ i j, rotateBoard bb h i j = 0 := by
  obtain ⟨i, j, hij⟩ := hz
  cases bb
  · exact ⟨j, i.rev, by simpa [rotateBoard] using hij⟩
  · exact ⟨j.rev, i, by simpa [rotateBoard] using hij⟩

theorem slideOf_has_zero (c : Char) (g : Grid) (p : Grid × Bool)
    (h : slideOf c g = some p) (hne : p.1 ≠ g) : ∃ i j, p.1 i j = 0 := by
  rcases slideOf_cases c g p h with rfl | rfl | rfl | rfl
  · exact slideGridLeft_has_zero g hne
  · have h2 : slideGridLeft (rotateBoard true (rotateBoard true g)) ≠
        rotateBoard true (rotateBoard true g) := by
      intro hc
      apply hne
      show slideGridRight g = g
      unfold slideGridRight
      rw [hc, rot180_rot180]
    exact rot_has_zero true _ (rot_has_zero true _ (slideGridLeft_has_zero _ h2))
  · have h2 : slideGridLeft (rotateBoard true g) ≠ rotateBoard true g := by
      intro hc
      apply hne
      show slideGridUp g = g
      unfold slideGridUp
      rw [hc, rot_cw_ccw]
    exact rot_has_zero false _ (slideGridLeft_has_zero _ h2)
  · have h2 : slideGridLeft (rotateBoard false g) ≠ rotateBoard false g := by
      intro hc
      apply hne
      show slideGridDown g = g
      unfold slideGridDown
      rw [hc, rot_ccw_cw]
    exact rot_has_zero true _ (slideGridLeft_has_zero _ h2)

/-! ## Claim theorems -/

/-- C1: the slide-left primitive is claimed to merge each value into the
previous emitted value at most once per pass.  The code violates this:
on the row `[2,2,4,0]` the 4 produced by merging the two 2s is
immediately merged again with the original 4, giving `[8,0,0,0]` instead
of `[4,4,0,0]`.  (The spec's own example `[2,2,2,0] → [4,2,0,0]` does
hold, since there the third 2 differs from the merged 4.) -/
theorem c1_slideRowLeft_double_merge :
    slideRowLeft [2, 2, 4, 0] = [8, 0, 0, 0] ∧
    slideRowLeft [2, 2, 2, 0] = [4, 2, 0, 0] := by
  constructor <;> rfl

/-- C2 counterexample: the slide-and-merge transform is not idempotent
on the second application.  Starting from the grid whose top row is
`[2,2,2,2]`, the first left slide yields top row `[4,4,0,0]` and a
second left slide (no spawn in between) changes cell (0,0) from 4 to 8
and reports a change. -/
theorem c2_second_slide_changes :
    movedLeft (slideGridLeft quad2Grid) = true ∧
    slideGridLeft quad2Grid 0 0 = 4 ∧
    slideGridLeft (slideGridLeft quad2Grid) 0 0 = 8 := by
  refine ⟨by decide, by decide, by decide⟩

/-- C2 (amended): a second application of the same slide may still change
the grid (it can merge tiles that the first pass made adjacent); what
does hold is that once an application reports no change, repeating it
without a spawn changes nothing and again reports no change. -/
theorem c2_no_residual_after_no_change (g : Grid) (c : Char) (p : Grid × Bool)
    (h : slideOf c g = some p) (hmv : p.2 = false) :
    p.1 = g ∧ slideOf c p.1 = some (p.1, false) := by
  have h1 : p.1 = g := by
    by_contra hc
    rw [(slideOf_moved_iff c g p h).mpr hc] at hmv
    exact absurd hmv (by simp)
  obtain ⟨g2, mv⟩ := p
  simp only at h1 hmv
  subst h1
  subst hmv
  exact ⟨rfl, h⟩

theorem c2_no_residual_after_no_change_witness :
    ((slideGridLeft zeroGrid, movedLeft zeroGrid) : Grid × Bool).1 = zeroGrid ∧
    slideOf 'L' ((slideGridLeft zeroGrid, movedLeft zeroGrid) : Grid × Bool).1 =
      some (((slideGridLeft zeroGrid, movedLeft zeroGrid) : Grid × Bool).1, false) :=
  c2_no_residual_after_no_change zeroGrid 'L'
    (slideGridLeft zeroGrid, movedLeft zeroGrid) rfl (by decide)

/-- C5: the clockwise and counter-clockwise 90° rotations of
`rotateBoard` are mutual inverses, and four rotations in either
direction (in particular the double-180° composition used by
`slidePiecesRight`) restore the grid exactly. -/
theorem c5_rotations_cancel (g : Grid) :
    rotateBoard false (rotateBoard true g) = g ∧
    rotateBoard true (rotateBoard false g) = g ∧
    rotateBoard true (rotateBoard true (rotateBoard true (rotateBoard true g))) = g ∧
    rotateBoard false (rotateBoard false (rotateBoard false (rotateBoard false g))) = g :=
  ⟨rot_cw_ccw g, rot_ccw_cw g, rot180_rot180 g, rot_cw4 g⟩

/-- C7: a direction whose upper-cased character is none of L/R/U/D makes
`move` return false with the board and the random source untouched —
exactly the result of a legal-but-blocked move. -/
theorem c7_move_unrecognized (b : Board) (rs : RandSource) (c : Char)
    (h1 : c.toUpper ≠ 'L') (h2 : c.toUpper ≠ 'R')
    (h3 : c.toUpper ≠ 'U') (h4 : c.toUpper ≠ 'D') :
    move b c rs = (b, rs, false) := by
  apply move_of_none
  unfold slideOf
  rw [if_neg h1, if_neg h2, if_neg h3, if_neg h4]

theorem c7_move_unrecognized_witness :
    move demoBoard 'X' rsConst = (demoBoard, rsConst, false) :=
  c7_move_unrecognized demoBoard rsConst 'X'
    (by decide) (by decide) (by decide) (by decide)

/-- C10: if a directional slide changes the grid then the slid grid
still has an empty cell, so the spawn inside a true-returning `move`
never takes its silent no-op branch: it always turns exactly one empty
cell of the slid grid into a tile. -/
theorem c10_spawn_never_noop (b : Board) (c : Char) (rs : RandSource)
    (p : Grid × Bool) (h : slideOf c b.grid = some p) (hne : p.1 ≠ b.grid) :
    (∃ i j, p.1 i j = 0) ∧
    ∃ q : Fin 4 × Fin 4, p.1 q.1 q.2 = 0 ∧
      (move b c rs).1.grid q.1 q.2 ≠ 0 ∧
      ∀ q' : Fin 4 × Fin 4, q' ≠ q →
        (move b c rs).1.grid q'.1 q'.2 = p.1 q'.1 q'.2 := by
  have hz := slideOf_has_zero c b.grid p h hne
  refine ⟨hz, ?_⟩
  obtain ⟨i, j, hij⟩ := hz
  have hmv : p.2 = true := (slideOf_moved_iff c b.grid p h).mpr hne
  rw [move_of_true b c rs p h hmv]
  have hel : emptyList p.1 ≠ [] := emptyList_ne_nil p.1 i j hij
  obtain ⟨q, hq0, hqv, hqo, -⟩ :=
    addRandomPiece_changes { b with grid := p.1 } rs hel
  refine ⟨q, hq0, ?_, fun q' hq' => hqo q' hq'⟩
  rcases hqv with h' | h' <;> rw [h'] <;> simp

theorem c10_spawn_never_noop_witness :
    (∃ i j, ((slideGridLeft quad2Grid, movedLeft quad2Grid) : Grid × Bool).1 i j = 0) ∧
    ∃ q : Fin 4 × Fin 4,
      ((slideGridLeft quad2Grid, movedLeft quad2Grid) : Grid × Bool).1 q.1 q.2 = 0 ∧
      (move { grid := quad2Grid, winTarget := 1024 } 'L' rsConst).1.grid q.1 q.2 ≠ 0 ∧
      ∀ q' : Fin 4 × Fin 4, q' ≠ q →
        (move { grid := quad2Grid, winTarget := 1024 } 'L' rsConst).1.grid q'.1 q'.2 =
          ((slideGridLeft quad2Grid, movedLeft quad2Grid) : Grid × Bool).1 q'.1 q'.2 :=
  c10_spawn_never_noop { grid := quad2Grid, winTarget := 1024 } 'L' rsConst
    (slideGridLeft quad2Grid, movedLeft quad2Grid) rfl (by decide)

/-- C4: for a recognized direction, `move` returns true exactly when the
directional slide changed some cell; a no-change move leaves board and
random source exactly as they were; a changing move keeps the win target
and spawns exactly one tile on a previously-empty cell of the slid
grid. -/
theorem c4_move_spec (b : Board) (c : Char) (rs : RandSource)
    (p : Grid × Bool) (h : slideOf c b.grid = some p) :
    ((move b c rs).2.2 = true ↔ p.1 ≠ b.grid) ∧
    (p.1 = b.grid → move b c rs = (b, rs, false)) ∧
    (p.1 ≠ b.grid →
      (move b c rs).1.winTarget = b.winTarget ∧
      ∃ q : Fin 4 × Fin 4, p.1 q.1 q.2 = 0 ∧
        (move b c rs).1.grid q.1 q.2 ≠ 0 ∧
        ∀ q' : Fin 4 × Fin 4, q' ≠ q →
          (move b c rs).1.grid q'.1 q'.2 = p.1 q'.1 q'.2) := by
  refine ⟨?_, ?_, ?_⟩
  · cases hmv : p.2
    · rw [move_of_false b c rs p h hmv]
      simp only [Bool.false_eq_true, false_iff, ne_eq, not_not]
      by_contra hc
      rw [(slideOf_moved_iff c b.grid p h).mpr hc] at hmv
      exact absurd hmv (by simp)
    · rw [move_of_true b c rs p h hmv]
      simpa using (slideOf_moved_iff c b.grid p h).mp hmv
  · intro heq
    have hmv : p.2 = false := by
      cases hmv : p.2
      · rfl
      · exact absurd heq ((slideOf_moved_iff c b.grid p h).mp hmv)
    rw [move_of_false b c rs p h hmv, heq]
  · intro hne
    have hmv : p.2 = true := (slideOf_moved_iff c b.grid p h).mpr hne
    obtain ⟨i, j, hij⟩ := slideOf_has_zero c b.grid p h hne
    have hel : emptyList p.1 ≠ [] := emptyList_ne_nil p.1 i j hij
    obtain ⟨q, hq0, hqv, hqo, hwt⟩ :=
      addRandomPiece_changes { b with grid := p.1 } rs hel
    rw [move_of_true b c rs p h hmv]
    refine ⟨hwt, q, hq0, ?_, fun q' hq' => hqo q' hq'⟩
    rcases hqv with h' | h' <;> rw [h'] <;> simp

theorem c4_move_spec_witness :
    ((move { grid := quad2Grid, winTarget := 256 } 'L' rsConst).2.2 = true ↔
      ((slideGridLeft quad2Grid, movedLeft quad2Grid) : Grid × Bool).1 ≠ quad2Grid) ∧
    (((slideGridLeft quad2Grid, movedLeft quad2Grid) : Grid × Bool).1 = quad2Grid →
      move { grid := quad2Grid, winTarget := 256 } 'L' rsConst =
        ({ grid := quad2Grid, winTarget := 256 }, rsConst, false)) ∧
    (((slideGridLeft quad2Grid, movedLeft quad2Grid) : Grid × Bool).1 ≠ quad2Grid →
      (move { grid := quad2Grid, winTarget := 256 } 'L' rsConst).1.winTarget = 256 ∧
      ∃ q : Fin 4 × Fin 4,
        ((slideGridLeft quad2Grid, movedLeft quad2Grid) : Grid × Bool).1 q.1 q.2 = 0 ∧
        (move { grid := quad2Grid, winTarget := 256 } 'L' rsConst).1.grid q.1 q.2 ≠ 0 ∧
        ∀ q' : Fin 4 × Fin 4, q' ≠ q →
          (move { grid := quad2Grid, winTarget := 256 } 'L' rsConst).1.grid q'.1 q'.2 =
            ((slideGridLeft quad2Grid, movedLeft quad2Grid) : Grid × Bool).1 q'.1 q'.2) :=
  c4_move_spec { grid := quad2Grid, winTarget := 256 } 'L' rsConst
    (slideGridLeft quad2Grid, movedLeft quad2Grid) rfl

/-- C6: `addRandomPiece` is a silent no-op on a full grid; otherwise the
index drawn over `[0, emptyCount-1]` selects an empty square, which
becomes 2 or 4 according to a `[1,10]` draw compared against the
threshold derived from the win target (256 ↦ 5, 512 ↦ 7, otherwise 9);
no other cell and not the win target change, and exactly the two draws
are consumed. -/
theorem c6_spawn_spec (b : Board) (rs : RandSource) :
    (emptyList b.grid = [] → addRandomPiece b rs = (b, rs)) ∧
    (emptyList b.grid ≠ [] →
      (chooseRandomNumber 0 ((emptyList b.grid).length - 1) rs).1 <
        (emptyList b.grid).length ∧
      b.grid ((emptyList b.grid).getD
          (chooseRandomNumber 0 ((emptyList b.grid).length - 1) rs).1 (0, 0)).1
        ((emptyList b.grid).getD
          (chooseRandomNumber 0 ((emptyList b.grid).length - 1) rs).1 (0, 0)).2 = 0 ∧
      (addRandomPiece b rs).1.grid
          ((emptyList b.grid).getD
            (chooseRandomNumber 0 ((emptyList b.grid).length - 1) rs).1 (0, 0)).1
          ((emptyList b.grid).getD
            (chooseRandomNumber 0 ((emptyList b.grid).length - 1) rs).1 (0, 0)).2 =
        (if (chooseRandomNumber 1 10
              (chooseRandomNumber 0 ((emptyList b.grid).length - 1) rs).2).1 ≤
            (if b.winTarget = 256 then 5 else if b.winTarget = 512 then 7 else 9)
          then 2 else 4) ∧
      (∀ q : Fin 4 × Fin 4,
        q ≠ (emptyList b.grid).getD
            (chooseRandomNumber 0 ((emptyList b.grid).length - 1) rs).1 (0, 0) →
        (addRandomPiece b rs).1.grid q.1 q.2 = b.grid q.1 q.2) ∧
      (addRandomPiece b rs).1.winTarget = b.winTarget ∧
      (addRandomPiece b rs).2 =
        (chooseRandomNumber 1 10
          (chooseRandomNumber 0 ((emptyList b.grid).length - 1) rs).2).2) :=
  ⟨addRandomPiece_of_full b rs, addRandomPiece_spec b rs⟩

theorem c6_spawn_spec_witness :
    emptyList demoBoard.grid ≠ [] ∧
    (chooseRandomNumber 0 ((emptyList demoBoard.grid).length - 1) rsConst).1 <
      (emptyList demoBoard.grid).length ∧
    demoBoard.grid ((emptyList demoBoard.grid).getD
        (chooseRandomNumber 0 ((emptyList demoBoard.grid).length - 1) rsConst).1 (0, 0)).1
      ((emptyList demoBoard.grid).getD
        (chooseRandomNumber 0 ((emptyList demoBoard.grid).length - 1) rsConst).1 (0, 0)).2 = 0 :=
  ⟨by decide, ((c6_spawn_spec demoBoard rsConst).2 (by decide)).1,
    ((c6_spawn_spec demoBoard rsConst).2 (by decide)).2.1⟩

/-- C8: constructing a board initializes the win target from the mode
(E ↦ 256, M ↦ 512, otherwise 1024) on an all-zero grid and then spawns
exactly twice: the resulting grid has exactly two non-zero cells, each
2 or 4, and the other fourteen cells zero. -/
theorem c8_init_spec (mode : String) (rs : RandSource) :
    (Board.init mode rs).1.winTarget =
      (if mode = "E" then 256 else if mode = "M" then 512 else 1024) ∧
    ∃ p1 p2 : Fin 4 × Fin 4, p1 ≠ p2 ∧
      ((Board.init mode rs).1.grid p1.1 p1.2 = 2 ∨
        (Board.init mode rs).1.grid p1.1 p1.2 = 4) ∧
      ((Board.init mode rs).1.grid p2.1 p2.2 = 2 ∨
        (Board.init mode rs).1.grid p2.1 p2.2 = 4) ∧
      ∀ q : Fin 4 × Fin 4, q ≠ p1 → q ≠ p2 →
        (Board.init mode rs).1.grid q.1 q.2 = 0 := by
  have hne0 : emptyList (b0Of mode).grid ≠ [] :=
    emptyList_ne_nil _ 0 0 rfl
  obtain ⟨p1, h10, h1v, h1o, h1wt⟩ := addRandomPiece_changes (b0Of mode) rs hne0
  have hinit : Board.init mode rs =
      addRandomPiece (addRandomPiece (b0Of mode) rs).1
        (addRandomPiece (b0Of mode) rs).2 := rfl
  have hq0ne : (if p1 = ((0 : Fin 4), (0 : Fin 4)) then ((1 : Fin 4), (1 : Fin 4))
      else ((0 : Fin 4), (0 : Fin 4))) ≠ p1 := by
    by_cases hc : p1 = ((0 : Fin 4), (0 : Fin 4))
    · rw [if_pos hc, hc]
      decide
    · rw [if_neg hc]
      exact fun hcc => hc hcc.symm
  have hq00 : (addRandomPiece (b0Of mode) rs).1.grid
      (if p1 = ((0 : Fin 4), (0 : Fin 4)) then ((1 : Fin 4), (1 : Fin 4))
        else ((0 : Fin 4), (0 : Fin 4))).1
      (if p1 = ((0 : Fin 4), (0 : Fin 4)) then ((1 : Fin 4), (1 : Fin 4))
        else ((0 : Fin 4), (0 : Fin 4))).2 = 0 := by
    rw [h1o _ hq0ne]
    rfl
  have hne1 : emptyList (addRandomPiece (b0Of mode) rs).1.grid ≠ [] :=
    emptyList_ne_nil _ _ _ hq00
  obtain ⟨p2, h20, h2v, h2o, h2wt⟩ := addRandomPiece_changes _ _ hne1
  have hne12 : p1 ≠ p2 := by
    intro hc
    rcases h1v with h' | h' <;> rw [hc, h20] at h' <;> simp at h'
  refine ⟨?_, p1, p2, hne12, ?_, ?_, ?_⟩
  · rw [hinit]
    rw [h2wt, h1wt]
    rfl
  · rw [hinit, h2o p1 hne12]
    exact h1v
  · rw [hinit]
    exact h2v
  · intro q hqp1 hqp2
    rw [hinit, h2o q hqp2, h1o q hqp1]
    rfl

/-! ## The data-model invariant (C9) -/

theorem cellOK_double (y : Nat) (h : CellOK y) : CellOK (y * 2) := by
  rcases h with rfl | ⟨k, rfl⟩
  · exact Or.inl rfl
  · exact Or.inr ⟨k + 1, by ring⟩

theorem foldl_cellOK (r : List Nat) :
    ∀ p : List Nat × Bool, (∀ x ∈ r, CellOK x) → (∀ y ∈ p.1, CellOK y) →
      ∀ y ∈ (r.foldl collapseStep p).1, CellOK y := by
  induction r with
  | nil => intro p _ hp; simpa using hp
  | cons x r ih =>
    intro p hr hp
    simp only [List.foldl_cons]
    refine ih (collapseStep p x) (fun z hz => hr z (List.mem_cons_of_mem _ hz)) ?_
    have hx' : CellOK x := hr x (List.mem_cons_self x r)
    obtain ⟨acc, flag⟩ := p
    unfold collapseStep
    by_cases hx : x = 0
    · simpa [hx] using hp
    · cases acc with
      | nil =>
        intro z hz
        simp only [hx, ite_false] at hz
        rcases List.mem_cons.mp hz with rfl | hz
        · exact hx'
        · exact hp z hz
      | cons y ys =>
        by_cases hyx : y = x
        · intro z hz
          simp only [hx, hyx, ite_false, ite_true] at hz
          rcases List.mem_cons.mp hz with rfl | hz
          · exact cellOK_double x (hyx ▸ hp y (List.mem_cons_self y ys))
          · exact hp z (List.mem_cons_of_mem _ hz)
        · intro z hz
          simp only [hx, hyx, ite_false] at hz
          rcases List.mem_cons.mp hz with rfl | hz
          · exact hx'
          · exact hp z hz

theorem slideRowLeft_cellOK (r : List Nat) (h : ∀ x ∈ r, CellOK x) :
    ∀ y ∈ slideRowLeft r, CellOK y := by
  intro y hy
  unfold slideRowLeft at hy
  rcases List.mem_append.mp hy with hy | hy
  · exact foldl_cellOK r ([], false) h (by simp) y (List.mem_reverse.mp hy)
  · rw [List.eq_of_mem_replicate hy]
    exact Or.inl rfl

theorem getD_cellOK (l : List Nat) (n : Nat) (h : ∀ y ∈ l, CellOK y) :
    CellOK (l.getD n 0) := by
  by_cases hn : n < l.length
  · rw [List.getD_eq_getElem _ _ hn]
    exact h _ (List.getElem_mem hn)
  · rw [List.getD_eq_getElem?_getD, List.getElem?_eq_none (Nat.le_of_not_lt hn)]
    exact Or.inl rfl

theorem slideGridLeft_cellOK (g : Grid) (h : ∀ i j, CellOK (g i j)) :
    ∀ i j, CellOK (slideGridLeft g i j) := by
  intro i j
  apply getD_cellOK
  apply slideRowLeft_cellOK
  intro x hx
  simp only [rowList, List.mem_cons, List.not_mem_nil, or_false] at hx
  rcases hx with rfl | rfl | rfl | rfl <;> apply h

theorem rot_cellOK (bb : Bool) (g : Grid) (h : ∀ i j, CellOK (g i j)) :
    ∀ i j, CellOK (rotateBoard bb g i j) := by
  intro i j
  cases bb <;> simp only [rotateBoard, ite_false, ite_true] <;> apply h

theorem slideOf_cellOK (c : Char) (g : Grid) (p : Grid × Bool)
    (h : slideOf c g = some p) (hg : ∀ i j, CellOK (g i j)) :
    ∀ i j, CellOK (p.1 i j) := by
  rcases slideOf_cases c g p h with rfl | rfl | rfl | rfl
  · exact slideGridLeft_cellOK g hg
  · exact rot_cellOK true _ (rot_cellOK true _
      (slideGridLeft_cellOK _ (rot_cellOK true _ (rot_cellOK true _ hg))))
  · exact rot_cellOK false _ (slideGridLeft_cellOK _ (rot_cellOK true _ hg))
  · exact rot_cellOK true _ (slideGridLeft_cellOK _ (rot_cellOK false _ hg))

theorem addRandomPiece_inv (b : Board) (rs : RandSource) (h : BoardInv b) :
    BoardInv (addRandomPiece b rs).1 ∧
    (addRandomPiece b rs).1.winTarget = b.winTarget := by
  by_cases hne : emptyList b.grid = []
  · rw [addRandomPiece_of_full b rs hne]
    exact ⟨h, rfl⟩
  · obtain ⟨p, hp0, hpv, hpo, hwt⟩ := addRandomPiece_changes b rs hne
    refine ⟨⟨?_, ?_⟩, hwt⟩
    · intro i j
      by_cases hq : ((i, j) : Fin 4 × Fin 4) = p
      · have hv := hpv
        rw [← hq] at hv
        rcases hv with h' | h' <;> rw [h']
        · exact Or.inr ⟨0, rfl⟩
        · exact Or.inr ⟨1, rfl⟩
      · rw [hpo (i, j) hq]
        exact h.1 i j
    · rw [hwt]
      exact h.2

theorem move_inv (b : Board) (c : Char) (rs : RandSource) (h : BoardInv b) :
    BoardInv (move b c rs).1 ∧ (move b c rs).1.winTarget = b.winTarget := by
  cases hs : slideOf c b.grid with
  | none =>
    rw [move_of_none b c rs hs]
    exact ⟨h, rfl⟩
  | some p =>
    have hcell : ∀ i j, CellOK (p.1 i j) := slideOf_cellOK c b.grid p hs h.1
    have hmid : BoardInv { b with grid := p.1 } := ⟨hcell, h.2⟩
    cases hmv : p.2
    · rw [move_of_false b c rs p hs hmv]
      exact ⟨hmid, rfl⟩
    · rw [move_of_true b c rs p hs hmv]
      have hh := addRandomPiece_inv { b with grid := p.1 } rs hmid
      exact ⟨hh.1, hh.2⟩

theorem init_inv (mode : String) (rs : RandSource) :
    BoardInv (Board.init mode rs).1 := by
  have h0 : BoardInv (b0Of mode) := by
    refine ⟨fun i j => Or.inl rfl, ?_⟩
    unfold b0Of
    split_ifs <;> simp
  have h1 := addRandomPiece_inv (b0Of mode) rs h0
  have h2 := addRandomPiece_inv (addRandomPiece (b0Of mode) rs).1
    (addRandomPiece (b0Of mode) rs).2 h1.1
  exact h2.1

/-- C9: every reachable board satisfies the data-model invariant —
every cell 0 or a positive power of 2 and the win target one of
256/512/1024 — established by construction and preserved, together
with the win target itself, by every spawn and every move. -/
theorem c9_invariant :
    (∀ mode rs, BoardInv (Board.init mode rs).1) ∧
    (∀ b rs, BoardInv b → BoardInv (addRandomPiece b rs).1 ∧
      (addRandomPiece b rs).1.winTarget = b.winTarget) ∧
    (∀ b c rs, BoardInv b → BoardInv (move b c rs).1 ∧
      (move b c rs).1.winTarget = b.winTarget) :=
  ⟨init_inv, addRandomPiece_inv, move_inv⟩

theorem c9_invariant_witness :
    BoardInv (move demoBoard 'L' rsConst).1 ∧
    (move demoBoard 'L' rsConst).1.winTarget = demoBoard.winTarget :=
  c9_invariant.2.2 demoBoard 'L' rsConst ⟨fun i j => Or.inl rfl, Or.inl rfl⟩

/-! ## Row lemmas for the game-over analysis (C3) -/

/-- A full row with pairwise-distinct neighbours is left unchanged and
reports no movement. -/
theorem rowMoved_full_distinct (a b c d : Nat) (ha : a ≠ 0) (hb : b ≠ 0)
    (hc : c ≠ 0) (hd : d ≠ 0) (hab : a ≠ b) (hbc : b ≠ c) (hcd : c ≠ d) :
    rowMoved [a, b, c, d] = false := by
  have hcol : collapseAux [a, b, c, d] = ([d, c, b, a], false) := by
    unfold collapseAux
    simp [collapseStep, ha, hb, hc, hd, hab, hbc, hcd]
  unfold rowMoved slideRowLeft
  rw [hcol]
  simp

/-- A full row with some pair of equal neighbours merges, hence moves. -/
theorem rowMoved_full_pair (a b c d : Nat) (ha : a ≠ 0) (hb : b ≠ 0)
    (hc : c ≠ 0) (hpair : a = b ∨ b = c ∨ c = d) :
    rowMoved [a, b, c, d] = true := by
  have hflag : (collapseAux [a, b, c, d]).2 = true := by
    unfold collapseAux
    by_cases hab : a = b
    · subst hab
      have hstep : List.foldl collapseStep ([], false) [a, a, c, d] =
          List.foldl collapseStep ([a * 2], true) [c, d] := by
        simp [collapseStep, ha]
      rw [hstep]
      exact foldl_snd_true [c, d] ([a * 2], true) rfl
    · by_cases hbc : b = c
      · subst hbc
        have hstep : List.foldl collapseStep ([], false) [a, b, b, d] =
            List.foldl collapseStep ([b * 2, a], true) [d] := by
          simp [collapseStep, ha, hb, hab]
        rw [hstep]
        exact foldl_snd_true [d] ([b * 2, a], true) rfl
      · have hcd : c = d := by tauto
        subst hcd
        have hstep : List.foldl collapseStep ([], false) [a, b, c, c] =
            ([c * 2, b, a], true) := by
          simp [collapseStep, ha, hb, hc, hab, hbc]
        rw [hstep]
  unfold rowMoved
  rw [hflag]
  simp

/-- A 4-cell row holding both a zero and a non-zero value moves when slid
left, or moves when reversed and slid left. -/
theorem rowMoved_mixed (a b c d : Nat) (hz : a = 0 ∨ b = 0 ∨ c = 0 ∨ d = 0)
    (hnz : a ≠ 0 ∨ b ≠ 0 ∨ c ≠ 0 ∨ d ≠ 0) :
    rowMoved [a, b, c, d] = true ∨ rowMoved [d, c, b, a] = true := by
  by_cases hch : slideRowLeft [a, b, c, d] = [a, b, c, d]
  · right
    apply (rowMoved_iff _).mpr
    apply head_zero_changes
    · show [d, c, b, a].getD 0 0 = 0
      have hn3 : nz [a, b, c, d] ≤ 3 := by
        rcases hz with h0 | h0 | h0 | h0 <;> subst h0 <;>
          simp only [nz_cons, nz_nil] <;> split_ifs <;> omega
      have hlen3 : (collapseAux [a, b, c, d]).1.length ≤ 3 := by
        have := collapse_len_le_nz [a, b, c, d]
        omega
      have hd0 := slideRowLeft_getD3 [a, b, c, d] hlen3
      rw [hch] at hd0
      simpa using hd0
    · rcases hnz with h | h | h | h
      · exact ⟨a, by simp, h⟩
      · exact ⟨b, by simp, h⟩
      · exact ⟨c, by simp, h⟩
      · exact ⟨d, by simp, h⟩
  · left
    exact (rowMoved_iff _).mpr hch

/-! ## Game-over analysis (C3) -/

theorem isGameOver_iff (g : Grid) :
    isGameOver g = true ↔
      ((∀ i j : Fin 4, g i j ≠ 0) ∧
       (∀ i j : Fin 4, j.val < 3 → g i j ≠ g i (j + 1)) ∧
       (∀ i j : Fin 4, i.val < 3 → g i j ≠ g (i + 1) j)) := by
  unfold isGameOver
  rw [decide_eq_true_eq]
  constructor
  · intro h
    exact ⟨fun i j => (h i j).1, fun i j hj => (h i j).2.1 hj,
      fun i j hi => (h i j).2.2 hi⟩
  · rintro ⟨h1, h2, h3⟩ i j
    exact ⟨h1 i j, fun hj => h2 i j hj, fun hi => h3 i j hi⟩

/-- On a terminal grid no direction slides. -/
theorem gameOver_no_moves (g : Grid) (h : isGameOver g = true) :
    movedLeft g = false ∧ movedRight g = false ∧
    movedUp g = false ∧ movedDown g = false := by
  obtain ⟨h0, hH, hV⟩ := (isGameOver_iff g).mp h
  refine ⟨?_, ?_, ?_, ?_⟩
  · unfold movedLeft
    rw [List.any_eq_false]
    intro i _
    rw [Bool.not_eq_true]
    show rowMoved [g i 0, g i 1, g i 2, g i 3] = false
    exact rowMoved_full_distinct _ _ _ _ (h0 i 0) (h0 i 1) (h0 i 2) (h0 i 3)
      (hH i 0 (by decide)) (hH i 1 (by decide)) (hH i 2 (by decide))
  · unfold movedRight movedLeft
    rw [List.any_eq_false]
    intro a _
    rw [Bool.not_eq_true]
    show rowMoved [g a.rev 3, g a.rev 2, g a.rev 1, g a.rev 0] = false
    exact rowMoved_full_distinct _ _ _ _ (h0 a.rev 3) (h0 a.rev 2) (h0 a.rev 1)
      (h0 a.rev 0) (Ne.symm (hH a.rev 2 (by decide)))
      (Ne.symm (hH a.rev 1 (by decide))) (Ne.symm (hH a.rev 0 (by decide)))
  · unfold movedUp movedLeft
    rw [List.any_eq_false]
    intro a _
    rw [Bool.not_eq_true]
    show rowMoved [g 0 a.rev, g 1 a.rev, g 2 a.rev, g 3 a.rev] = false
    exact rowMoved_full_distinct _ _ _ _ (h0 0 a.rev) (h0 1 a.rev) (h0 2 a.rev)
      (h0 3 a.rev) (hV 0 a.rev (by decide)) (hV 1 a.rev (by decide))
      (hV 2 a.rev (by decide))
  · unfold movedDown movedLeft
    rw [List.any_eq_false]
    intro a _
    rw [Bool.not_eq_true]
    show rowMoved [g 3 a, g 2 a, g 1 a, g 0 a] = false
    exact rowMoved_full_distinct _ _ _ _ (h0 3 a) (h0 2 a) (h0 1 a) (h0 0 a)
      (Ne.symm (hV 2 a (by decide))) (Ne.symm (hV 1 a (by decide)))
      (Ne.symm (hV 0 a (by decide)))

/-- A non-terminal grid holding at least one tile slides in some
direction. -/
theorem not_gameOver_some_move (g : Grid) (hnz : ∃ i j, g i j ≠ 0)
    (h : ¬ isGameOver g = true) :
    movedLeft g = true ∨ movedRight g = true ∨
    movedUp g = true ∨ movedDown g = true := by
  by_cases hzero : ∃ i j, g i j = 0
  · obtain ⟨i0, j0, hz0⟩ := hzero
    obtain ⟨i1, j1, hnz1⟩ := hnz
    by_cases hmix : ∃ i, (∃ j, g i j = 0) ∧ (∃ j, g i j ≠ 0)
    · obtain ⟨i, ⟨jz, hjz⟩, jn, hjn⟩ := hmix
      have hzd : g i 0 = 0 ∨ g i 1 = 0 ∨ g i 2 = 0 ∨ g i 3 = 0 := by
        fin_cases jz
        · exact Or.inl hjz
        · exact Or.inr (Or.inl hjz)
        · exact Or.inr (Or.inr (Or.inl hjz))
        · exact Or.inr (Or.inr (Or.inr hjz))
      have hnzd : g i 0 ≠ 0 ∨ g i 1 ≠ 0 ∨ g i 2 ≠ 0 ∨ g i 3 ≠ 0 := by
        fin_cases jn
        · exact Or.inl hjn
        · exact Or.inr (Or.inl hjn)
        · exact Or.inr (Or.inr (Or.inl hjn))
        · exact Or.inr (Or.inr (Or.inr hjn))
      rcases rowMoved_mixed (g i 0) (g i 1) (g i 2) (g i 3) hzd hnzd with hres | hres
      · left
        unfold movedLeft
        rw [List.any_eq_true]
        exact ⟨i, List.mem_finRange i, hres⟩
      · right; left
        unfold movedRight movedLeft
        rw [List.any_eq_true]
        refine ⟨i.rev, List.mem_finRange _, ?_⟩
        have hrl : rowList (rotateBoard true (rotateBoard true g)) i.rev =
            [g i 3, g i 2, g i 1, g i 0] := by
          simp [rowList, rotateBoard, Fin.rev_rev]
          try exact ⟨rfl, rfl, rfl, rfl⟩
        rw [hrl]
        exact hres
    · have hrow0 : ∀ j, g i0 j = 0 := by
        intro j
        by_contra hc
        exact hmix ⟨i0, ⟨j0, hz0⟩, j, hc⟩
      have hrow1 : ∀ j, g i1 j ≠ 0 := by
        intro j hc
        exact hmix ⟨i1, ⟨j, hc⟩, j1, hnz1⟩
      have hzc : g 0 0 = 0 ∨ g 1 0 = 0 ∨ g 2 0 = 0 ∨ g 3 0 = 0 := by
        have h00 := hrow0 0
        fin_cases i0
        · exact Or.inl h00
        · exact Or.inr (Or.inl h00)
        · exact Or.inr (Or.inr (Or.inl h00))
        · exact Or.inr (Or.inr (Or.inr h00))
      have hnzc : g 0 0 ≠ 0 ∨ g 1 0 ≠ 0 ∨ g 2 0 ≠ 0 ∨ g 3 0 ≠ 0 := by
        have h10 := hrow1 0
        fin_cases i1
        · exact Or.inl h10
        · exact Or.inr (Or.inl h10)
        · exact Or.inr (Or.inr (Or.inl h10))
        · exact Or.inr (Or.inr (Or.inr h10))
      rcases rowMoved_mixed (g 0 0) (g 1 0) (g 2 0) (g 3 0) hzc hnzc with hres | hres
      · right; right; left
        unfold movedUp movedLeft
        rw [List.any_eq_true]
        exact ⟨3, List.mem_finRange _, hres⟩
      · right; right; right
        unfold movedDown movedLeft
        rw [List.any_eq_true]
        exact ⟨0, List.mem_finRange _, hres⟩
  · push_neg at hzero
    have hfail : ∃ i j : Fin 4,
        (j.val < 3 ∧ g i j = g i (j + 1)) ∨ (i.val < 3 ∧ g i j = g (i + 1) j) := by
      by_contra hc
      push_neg at hc
      apply h
      rw [isGameOver_iff]
      refine ⟨hzero, ?_, ?_⟩
      · intro i j hj heq
        exact absurd heq ((hc i j).1 hj)
      · intro i j hi heq
        exact absurd heq ((hc i j).2 hi)
    obtain ⟨i, j, hpair⟩ := hfail
    rcases hpair with ⟨hj3, heq⟩ | ⟨hi3, heq⟩
    · left
      unfold movedLeft
      rw [List.any_eq_true]
      refine ⟨i, List.mem_finRange i, ?_⟩
      show rowMoved [g i 0, g i 1, g i 2, g i 3] = true
      apply rowMoved_full_pair _ _ _ _ (hzero i 0) (hzero i 1) (hzero i 2)
      fin_cases j
      · exact Or.inl heq
      · exact Or.inr (Or.inl heq)
      · exact Or.inr (Or.inr heq)
      · exact absurd hj3 (by decide)
    · right; right; left
      unfold movedUp movedLeft
      rw [List.any_eq_true]
      refine ⟨j.rev, List.mem_finRange _, ?_⟩
      have hrl : rowList (rotateBoard true g) j.rev =
          [g 0 j, g 1 j, g 2 j, g 3 j] := by
        simp [rowList, rotateBoard, Fin.rev_rev]
        try exact ⟨rfl, rfl, rfl, rfl⟩
      rw [hrl]
      apply rowMoved_full_pair _ _ _ _ (hzero 0 j) (hzero 1 j) (hzero 2 j)
      fin_cases i
      · exact Or.inl heq
      · exact Or.inr (Or.inl heq)
      · exact Or.inr (Or.inr heq)
      · exact absurd hi3 (by decide)

theorem move_snd_eq (b : Board) (c : Char) (rs : RandSource) (p : Grid × Bool)
    (h : slideOf c b.grid = some p) : (move b c rs).2.2 = p.2 := by
  cases hmv : p.2
  · rw [move_of_false b c rs p h hmv]
  · rw [move_of_true b c rs p h hmv]

/-- C3 counterexample: on the all-zero grid `isGameOver` is false, yet no
direction's `move` reports a change — so "terminal iff no move changes
the grid" fails as stated for arbitrary grids. -/
theorem c3_counterexample :
    isGameOver zeroGrid = false ∧
    (move { grid := zeroGrid, winTarget := 256 } 'L' rsConst).2.2 = false ∧
    (move { grid := zeroGrid, winTarget := 256 } 'R' rsConst).2.2 = false ∧
    (move { grid := zeroGrid, winTarget := 256 } 'U' rsConst).2.2 = false ∧
    (move { grid := zeroGrid, winTarget := 256 } 'D' rsConst).2.2 = false := by
  refine ⟨by decide, by decide, by decide, by decide, by decide⟩

/-- C3 (amended): `isGameOver` is true iff the grid is full and has no
equal horizontal or vertical neighbours; and for every grid holding at
least one tile this is further equivalent to all four directions of
`move` reporting no change.  (The all-zero grid must be excluded: it is
non-terminal but admits no changing move.) -/
theorem c3_isTerminal_spec (g : Grid) :
    (isGameOver g = true ↔
      ((∀ i j : Fin 4, g i j ≠ 0) ∧
       (∀ i j : Fin 4, j.val < 3 → g i j ≠ g i (j + 1)) ∧
       (∀ i j : Fin 4, i.val < 3 → g i j ≠ g (i + 1) j))) ∧
    ((∃ i j, g i j ≠ 0) → ∀ wt rs,
      (isGameOver g = true ↔
        ((move { grid := g, winTarget := wt } 'L' rs).2.2 = false ∧
         (move { grid := g, winTarget := wt } 'R' rs).2.2 = false ∧
         (move { grid := g, winTarget := wt } 'U' rs).2.2 = false ∧
         (move { grid := g, winTarget := wt } 'D' rs).2.2 = false))) := by
  refine ⟨isGameOver_iff g, ?_⟩
  intro hnz wt rs
  have eL : (move { grid := g, winTarget := wt } 'L' rs).2.2 = movedLeft g :=
    move_snd_eq _ _ _ (slideGridLeft g, movedLeft g) rfl
  have eR : (move { grid := g, winTarget := wt } 'R' rs).2.2 = movedRight g :=
    move_snd_eq _ _ _ (slideGridRight g, movedRight g) rfl
  have eU : (move { grid := g, winTarget := wt } 'U' rs).2.2 = movedUp g :=
    move_snd_eq _ _ _ (slideGridUp g, movedUp g) rfl
  have eD : (move { grid := g, winTarget := wt } 'D' rs).2.2 = movedDown g :=
    move_snd_eq _ _ _ (slideGridDown g, movedDown g) rfl
  rw [eL, eR, eU, eD]
  constructor
  · intro hgo
    exact gameOver_no_moves g hgo |>.imp id (fun x => x)
  · rintro ⟨hL, hR, hU, hD⟩
    by_contra hc
    rcases not_gameOver_some_move g hnz hc with h' | h' | h' | h' <;> simp_all

theorem c3_isTerminal_spec_witness :
    isGameOver blockedGrid = true ↔
      ((move { grid := blockedGrid, winTarget := 256 } 'L' rsConst).2.2 = false ∧
       (move { grid := blockedGrid, winTarget := 256 } 'R' rsConst).2.2 = false ∧
       (move { grid := blockedGrid, winTarget := 256 } 'U' rsConst).2.2 = false ∧
       (move { grid := blockedGrid, winTarget := 256 } 'D' rsConst).2.2 = false) :=
  (c3_isTerminal_spec blockedGrid).2 ⟨0, 0, by decide⟩ 256 rsConst

end Game1024
